import Mathlib

/-!
Shallow embedding of the table_reader repository's core logic, together with
theorems checking its natural-language specification against the code.

Covered source files:
 - `gridlines.py` — guide-line grid model: `create_lines`, endpoint dragging,
   segment intersection, cell derivation, `toggle_lock`;
 - `ocr.py` — `process_image` signal/exception flow and
   `_analyze_document_layout` row/column reconstruction;
 - `page_perspective_app.py` — `get_perspective_transform` destination
   rectangle computation.

Numeric conventions: Python numbers are modelled as exact rationals `ℚ`
(all coordinate values written by the code are integers, and the claims are
about the exact arithmetic the spec states); Python `int(x)` truncation
toward zero is `pyInt`; Python `//` floor division on integers is `Int.fdiv`.
-/

/-- Python `int(q)` on a number: truncation toward zero. -/
def pyInt (q : ℚ) : ℤ :=
  if q < 0 then -⌊-q⌋ else ⌊q⌋

/-! ## gridlines.py — data model -/

/-- `LineEndpoint` from gridlines.py (the `radius` hit-test field is used only
by mouse-press hit testing, which no claim touches, and is omitted). -/
structure LineEndpoint where
  x : ℚ
  y : ℚ
deriving DecidableEq, Repr

/-- `Cell` from gridlines.py: four corner points, each an `[int(x), int(y)]`
pair produced by the intersection computation. -/
structure Cell where
  top_left : ℤ × ℤ
  top_right : ℤ × ℤ
  bottom_left : ℤ × ℤ
  bottom_right : ℤ × ℤ
deriving DecidableEq, Repr

/-- `Line` from gridlines.py. The Python attribute `end` is called `endp`
here (`end` is a Lean keyword). -/
structure Line where
  start : LineEndpoint
  endp : LineEndpoint
  intersections : List (ℤ × ℤ)
  cells : List Cell
deriving DecidableEq, Repr

/-- Which endpoint of a line is being dragged: `'start'` or `'end'`. -/
inductive EndSel
  | startSel
  | stopSel
deriving DecidableEq, Repr

/-- The orientation tag `'horizontal'` / `'vertical'` stored in
`dragging_endpoint`. -/
inductive LineOrient
  | horizontal
  | vertical
deriving DecidableEq, Repr

/-- The `dragging_endpoint` triple `(line, end, orientation)`; the line is
identified by its index in the corresponding line list. -/
structure Drag where
  index : ℕ
  whichEnd : EndSel
  orient : LineOrient
deriving DecidableEq, Repr

/-- State of `CustomLineWidget` (gridlines.py). `widgetWidth`/`widgetHeight`
are `self.width()`/`self.height()`; `scaled_pixmap` is the scaled image's
`(width, height)` when an image is set. `cells` is the widget-level
`self.cells` attribute assigned in `calculate_cells`. -/
structure CustomLineWidget where
  widgetWidth : ℤ
  widgetHeight : ℤ
  scaled_pixmap : Option (ℤ × ℤ)
  horizontal_lines : List Line
  vertical_lines : List Line
  is_locked : Bool
  dragging_endpoint : Option Drag
  cells : List Cell
deriving DecidableEq, Repr

/-! ## gridlines.py — operations -/

/-- `CustomLineWidget.create_lines`: evenly places `num_horizontal + 1`
horizontal and `num_vertical + 1` vertical lines over the centered scaled
image; a no-op when no image is set. -/
def create_lines (w : CustomLineWidget) (num_horizontal num_vertical : ℕ) :
    CustomLineWidget :=
  match w.scaled_pixmap with
  | none => w
  | some (pw, ph) =>
    let x_offset := Int.fdiv (w.widgetWidth - pw) 2
    let y_offset := Int.fdiv (w.widgetHeight - ph) 2
    { w with
      horizontal_lines := (List.range (num_horizontal + 1)).map (fun (i : ℕ) =>
        let y := y_offset + Int.fdiv ((i : ℤ) * ph) (num_horizontal : ℤ)
        { start := { x := (x_offset : ℚ), y := (y : ℚ) }
          endp := { x := ((x_offset + pw : ℤ) : ℚ), y := (y : ℚ) }
          intersections := []
          cells := [] })
      vertical_lines := (List.range (num_vertical + 1)).map (fun (i : ℕ) =>
        let x := x_offset + Int.fdiv ((i : ℤ) * pw) (num_vertical : ℤ)
        { start := { x := (x : ℚ), y := (y_offset : ℚ) }
          endp := { x := (x : ℚ), y := ((y_offset + ph : ℤ) : ℚ) }
          intersections := []
          cells := [] }) }

/-- The body of the inner loop of `calculate_intersections`: the parametric
segment-intersection formula with the `1e-10` parallelism epsilon and the
`0 ≤ t ≤ 1`, `0 ≤ u ≤ 1` range check; the recorded point is truncated with
Python `int()`. -/
def segIntersect (x1 y1 x2 y2 x3 y3 x4 y4 : ℚ) : Option (ℤ × ℤ) :=
  let denominator := (x1 - x2) * (y3 - y4) - (y1 - y2) * (x3 - x4)
  if |denominator| < 1 / 10 ^ 10 then none
  else
    let t := ((x1 - x3) * (y3 - y4) - (y1 - y3) * (x3 - x4)) / denominator
    let u := -((x1 - x2) * (y1 - y3) - (y1 - y2) * (x1 - x3)) / denominator
    if 0 ≤ t ∧ t ≤ 1 ∧ 0 ≤ u ∧ u ≤ 1 then
      some (pyInt (x1 + t * (x2 - x1)), pyInt (y1 + t * (y2 - y1)))
    else none

/-- `CustomLineWidget.calculate_intersections`: each horizontal line's
intersection list is cleared and recomputed against every vertical line in
order, skipping pairs with no valid intersection. -/
def calculate_intersections (w : CustomLineWidget) : CustomLineWidget :=
  { w with
    horizontal_lines := w.horizontal_lines.map (fun h =>
      { h with
        intersections := w.vertical_lines.filterMap (fun v =>
          segIntersect h.start.x h.start.y h.endp.x h.endp.y
            v.start.x v.start.y v.endp.x v.endp.y) }) }

/-- Stable insertion step of Python's `list.sort(key=...)` (Timsort is
stable; insertion before the first strictly greater key preserves the
original order of equal keys, matching a stable sort). -/
def insertByKey {α : Type} (key : α → ℚ) (a : α) : List α → List α
  | [] => [a]
  | b :: l => if key a ≤ key b then a :: b :: l else b :: insertByKey key a l

/-- Stable sort by a rational key, modelling Python's `list.sort(key=...)` /
`sorted(...)`. -/
def sortByKey {α : Type} (key : α → ℚ) : List α → List α
  | [] => []
  | a :: l => insertByKey key a (sortByKey key l)

/-- The bottom-corner search in `calculate_cells`: scan the bottom line's
intersections for the first one with x-coordinate `≥ x0`; return it together
with the following intersection (if any). -/
def findLower : List (ℤ × ℤ) → ℤ → Option ((ℤ × ℤ) × Option (ℤ × ℤ))
  | [], _ => none
  | p :: rest, x0 => if p.1 ≥ x0 then some (p, rest.head?) else findLower rest x0

/-- The cell loop of `calculate_cells` for one pair of adjacent horizontal
lines: for each pair of consecutive top intersections, emit a cell exactly
when both bottom corners are found. -/
def cellsBetween : List (ℤ × ℤ) → List (ℤ × ℤ) → List Cell
  | [], _ => []
  | [_], _ => []
  | tl :: tr :: rest, bot =>
    (match findLower bot tl.1 with
     | some (bl, some br) =>
       [{ top_left := tl, top_right := tr, bottom_left := bl, bottom_right := br }]
     | _ => []) ++ cellsBetween (tr :: rest) bot

/-- The outer loop of `calculate_cells`: each horizontal line except the last
gets the cells between it and the next line appended to its (never cleared)
`cells` attribute. -/
def appendCellsToLines : List Line → List Line
  | [] => []
  | [l] => [l]
  | a :: b :: rest =>
    { a with cells := a.cells ++ cellsBetween a.intersections b.intersections } ::
      appendCellsToLines (b :: rest)

/-- `CustomLineWidget.calculate_cells`: resets the widget-level `self.cells`
attribute (which is never read elsewhere), sorts every horizontal line's
intersections by x, then appends the derived cells to each horizontal
line's `cells` list. -/
def calculate_cells (w : CustomLineWidget) : CustomLineWidget :=
  let sorted := w.horizontal_lines.map (fun h =>
    { h with intersections := sortByKey (fun p => (p.1 : ℚ)) h.intersections })
  { w with cells := [], horizontal_lines := appendCellsToLines sorted }

/-- `CustomLineWidget.toggle_lock`: flip the lock; on transition to locked,
compute intersections then cells. (The Python method also returns
`(is_locked, horizontal_lines, vertical_lines)`, all readable off the
resulting state.) -/
def toggle_lock (w : CustomLineWidget) : CustomLineWidget :=
  let w1 := { w with is_locked := !w.is_locked }
  if w1.is_locked then calculate_cells (calculate_intersections w1) else w1

/-- Replace the element at an index, if present (models in-place update of
one line object in a Python list). -/
def modifyAt {α : Type} : List α → ℕ → (α → α) → List α
  | [], _, _ => []
  | a :: rest, 0, f => f a :: rest
  | a :: rest, n + 1, f => a :: modifyAt rest n f

/-- Assign `endpoint.y` on the selected endpoint of a line. -/
def setEndY (l : Line) (e : EndSel) (v : ℚ) : Line :=
  match e with
  | .startSel => { l with start := { l.start with y := v } }
  | .stopSel => { l with endp := { l.endp with y := v } }

/-- Assign `endpoint.x` on the selected endpoint of a line. -/
def setEndX (l : Line) (e : EndSel) (v : ℚ) : Line :=
  match e with
  | .startSel => { l with start := { l.start with x := v } }
  | .stopSel => { l with endp := { l.endp with x := v } }

/-- `CustomLineWidget.mouseMoveEvent` (gridlines.py, identical logic in
table_ocr_app.py): while an endpoint is being dragged and the grid is
unlocked, a horizontal line's endpoint takes only the event's (truncated)
y-coordinate, a vertical line's endpoint only the x-coordinate. -/
def mouseMoveEvent (w : CustomLineWidget) (px py : ℚ) : CustomLineWidget :=
  match w.dragging_endpoint with
  | none => w
  | some d =>
    if w.is_locked then w
    else
      match d.orient with
      | .horizontal =>
        { w with
          horizontal_lines := modifyAt w.horizontal_lines d.index (fun l =>
            setEndY l d.whichEnd ((pyInt py : ℤ) : ℚ)) }
      | .vertical =>
        { w with
          vertical_lines := modifyAt w.vertical_lines d.index (fun l =>
            setEndX l d.whichEnd ((pyInt px : ℤ) : ℚ)) }

/-- Endpoint selector, for stating which endpoint a drag touched. -/
def Line.endpointAt (l : Line) : EndSel → LineEndpoint
  | .startSel => l.start
  | .stopSel => l.endp

/-- The endpoint opposite the dragged one. -/
def EndSel.other : EndSel → EndSel
  | .startSel => .stopSel
  | .stopSel => .startSel

/-! ## ocr.py — data model of the Vision response -/

/-- One `symbol` of a word in the Vision response. -/
structure OcrSymbol where
  text : String

/-- A bounding-box vertex (pixel coordinates). -/
structure OcrVertex where
  x : ℚ
  y : ℚ

/-- The `bounding_box` of a word. -/
structure OcrBox where
  vertices : List OcrVertex

/-- One recognized word: symbols plus bounding box. -/
structure OcrWord where
  symbols : List OcrSymbol
  bounding_box : OcrBox

/-- A paragraph of words. -/
structure OcrParagraph where
  words : List OcrWord

/-- A block of paragraphs. -/
structure OcrBlock where
  paragraphs : List OcrParagraph

/-- A page: blocks plus the page-level `width`. -/
structure OcrPage where
  blocks : List OcrBlock
  width : ℚ

/-- The Vision API response as `_analyze_document_layout` and
`process_image` consume it: `response.error.message` and
`response.full_text_annotation.pages`. -/
structure VisionResponse where
  error_message : String
  pages : List OcrPage

/-- An entry of one row bucket: the dict `{'x': avg_x, 'text': word_text}`. -/
structure RowWord where
  x : ℚ
  text : String
deriving DecidableEq

/-- Word text: `"".join(symbol.text for symbol in word.symbols)`. -/
def word_text (w : OcrWord) : String :=
  String.join (w.symbols.map (fun s => s.text))

/-- Centroid ordinate used for row clustering: the sum of the bounding-box
vertices' y values divided by 4 (the code divides by 4 regardless of the
number of vertices). -/
def wordAvgY (w : OcrWord) : ℚ :=
  ((w.bounding_box.vertices.map (fun v => v.y)).sum) / 4

/-- Centroid abscissa, same convention as `wordAvgY`. -/
def wordAvgX (w : OcrWord) : ℚ :=
  ((w.bounding_box.vertices.map (fun v => v.x)).sum) / 4

/-- The bucket-insertion loop of `_analyze_document_layout`: scan the
existing buckets in insertion order; the word joins the first bucket whose
key is within the fixed tolerance 50 of `avg_y`, else a new bucket keyed at
`avg_y` is appended. Bucket keys are never updated. -/
def insertRowWord (buckets : List (ℚ × List RowWord)) (avg_y : ℚ) (rw : RowWord) :
    List (ℚ × List RowWord) :=
  match buckets with
  | [] => [(avg_y, [rw])]
  | (line_y, ws) :: rest =>
    if |avg_y - line_y| < 50 then (line_y, ws ++ [rw]) :: rest
    else (line_y, ws) :: insertRowWord rest avg_y rw

/-- Process one word of the page: words with an empty vertex list are
skipped (`continue`), the rest are bucketed by centroid y. -/
def addWord (buckets : List (ℚ × List RowWord)) (w : OcrWord) :
    List (ℚ × List RowWord) :=
  if w.bounding_box.vertices.isEmpty then buckets
  else insertRowWord buckets (wordAvgY w) { x := wordAvgX w, text := word_text w }

/-- All words of a page in encounter order (blocks, then paragraphs, then
words). -/
def pageWords (p : OcrPage) : List OcrWord :=
  (p.blocks.flatMap (fun b => b.paragraphs)).flatMap (fun pa => pa.words)

/-- Row clustering: fold the page's words into row buckets. -/
def groupWords (ws : List OcrWord) : List (ℚ × List RowWord) :=
  ws.foldl addWord []

/-- The column-index loop: starting from column 0, advance past each
boundary the word's x strictly exceeds, stopping at the first boundary it
does not exceed. -/
def colIdxOf (x : ℚ) : List ℚ → ℕ
  | [] => 0
  | b :: rest => if x > b then 1 + colIdxOf x rest else 0

/-- Build one output row from a bucket's words (already sorted by x):
start from four empty cells and append each word's text (space-separated,
stripped) into its column. -/
def buildRow (boundaries : List ℚ) (ws : List RowWord) : List String :=
  ws.foldl
    (fun row w =>
      let idx := colIdxOf w.x boundaries
      row.set idx ((row.getD idx "" ++ " " ++ w.text).trim))
    ["", "", "", ""]

/-- The default header `["Column 1", ..., "Column 4"]`. -/
def defaultHeader : List String :=
  (List.range 4).map (fun i => "Column " ++ toString (i + 1))

/-- `OCR._analyze_document_layout`. Returns `(header, data)`. Python's
insertion-ordered dict of buckets is an association list; iterating
`sorted(lines.keys())` and indexing the dict equals sorting the association
list by key (keys are pairwise farther than 0 apart by construction). -/
def analyze_document_layout (resp : VisionResponse) :
    List String × List (List String) :=
  match resp.pages with
  | [] => ([], [])
  | page :: _ =>
    let buckets := groupWords (pageWords page)
    if buckets.isEmpty then ([], [])
    else
      let sortedBuckets := sortByKey (fun b => b.1) buckets
      let all_x_coords := sortedBuckets.flatMap (fun b => b.2.map (fun w => w.x))
      match all_x_coords with
      | [] => ([], [])
      | x0 :: xs =>
        let min_x := xs.foldl min x0
        let max_x := xs.foldl max x0
        let effective_width0 := max page.width max_x - min_x
        let effective_width := if effective_width0 ≤ 0 then 1 else effective_width0
        let col_width := effective_width / 4
        let col_boundaries :=
          (List.range 3).map (fun i => min_x + ((i : ℚ) + 1) * col_width)
        let processed_data :=
          (sortedBuckets.map (fun b =>
            buildRow col_boundaries (sortByKey (fun w => w.x) b.2))).filter
            (fun row => row.any (fun c => !c.trim.isEmpty))
        match processed_data with
        | [] => (defaultHeader, [])
        | h :: rest => (h, rest)

/-! ## ocr.py — process_image signal and exception flow -/

/-- The four Qt signals `OCR` can emit, in emission order. -/
inductive OcrSignal
  | started
  | error (msg : String)
  | completed (header : List String) (data : List (List String))
  | no_results
deriving DecidableEq

/-- The `try` block of `process_image` after the image is read and the
backend has answered: returns the signals it emits plus the exception
message it raises, if any. -/
def process_image_try (resp : VisionResponse) : List OcrSignal × Option String :=
  if resp.error_message ≠ "" then
    let error_msg := "Vision API Error: " ++ resp.error_message
    ([.error error_msg], some error_msg)
  else
    let hd := analyze_document_layout resp
    if hd.2.isEmpty && hd.1.isEmpty then ([.no_results], none)
    else ([.completed hd.1 hd.2], none)

/-- `OCR.process_image` with the credential check and the surrounding
`try/except` (which emits `ocr_error` with `str(e)` and re-raises): the
result is the emitted signal list and the exception propagated to the
caller, if any. File reading and client construction are assumed to
succeed; the claims under check concern the backend-error branch. -/
def process_image (credentials_set : Bool) (resp : VisionResponse) :
    List OcrSignal × Option String :=
  if !credentials_set then
    ([.started,
      .error "GOOGLE_APPLICATION_CREDENTIALS environment variable is not set."],
     some "GOOGLE_APPLICATION_CREDENTIALS environment variable is not set.")
  else
    match process_image_try resp with
    | (sigs, some e) => (OcrSignal.started :: sigs ++ [.error e], some e)
    | (sigs, none) => (OcrSignal.started :: sigs, none)

/-! ## CellTextExtractor (spec §4.5) -/

/-- Modelled from the spec: the CellTextExtractor component (spec §4.5) has
no implementation under src/ (only the grid and whole-image OCR paths
exist). Per the spec: for each cell of a locked grid in row-major order,
submit its rectified crop to the OCR backend and store the returned trimmed
text at `(row, col)`; a per-cell `BackendError` degrades to the empty
string for that cell only, and extraction continues. -/
def extract_table {α : Type} (grid : List (List α))
    (ocr_cell : α → Except String String) : List (List String) :=
  grid.map (fun row => row.map (fun cell =>
    match ocr_cell cell with
    | .ok text => text.trim
    | .error _ => ""))

/-- Row-major lookup in a matrix. -/
def matrixGet {β : Type} (m : List (List β)) (r c : ℕ) : Option β :=
  match m[r]? with
  | some row => row[c]?
  | none => none

/-! ## page_perspective_app.py — perspective transform geometry -/

/-- The four user-draggable corners (TL, TR, BR, BL), display coordinates
(`CornerPoint` positions are written as ints by the drag handler). -/
structure QuadCorners where
  c0 : ℤ × ℤ
  c1 : ℤ × ℤ
  c2 : ℤ × ℤ
  c3 : ℤ × ℤ

/-- State of `ImageWidget` as `get_perspective_transform` reads it: widget
size, scaled-pixmap size, original-image size, corner positions. -/
structure ImageWidgetState where
  widgetW : ℤ
  widgetH : ℤ
  scaledW : ℤ
  scaledH : ℤ
  origW : ℤ
  origH : ℤ
  corners : QuadCorners

/-- Display-to-original conversion of one corner: undo the centering
offset, multiply by the original/scaled scale factors. -/
def toOrigPoint (st : ImageWidgetState) (c : ℤ × ℤ) : ℚ × ℚ :=
  let x_ratio : ℚ := (st.origW : ℚ) / (st.scaledW : ℚ)
  let y_ratio : ℚ := (st.origH : ℚ) / (st.scaledH : ℚ)
  let x_offset := Int.fdiv (st.widgetW - st.scaledW) 2
  let y_offset := Int.fdiv (st.widgetH - st.scaledH) 2
  (((c.1 - x_offset : ℤ) : ℚ) * x_ratio, ((c.2 - y_offset : ℤ) : ℚ) * y_ratio)

/-- `src_points`: the four corners in original-image coordinates. -/
def src_points (st : ImageWidgetState) : List (ℚ × ℚ) :=
  [toOrigPoint st st.corners.c0, toOrigPoint st st.corners.c1,
   toOrigPoint st st.corners.c2, toOrigPoint st st.corners.c3]

/-- Squared Euclidean distance (exact, rational). -/
def sqDist (p q : ℚ × ℚ) : ℚ :=
  (p.1 - q.1) ^ 2 + (p.2 - q.2) ^ 2

/-- Euclidean distance `np.linalg.norm(p - q)`. -/
noncomputable def edgeLen (p q : ℚ × ℚ) : ℝ :=
  Real.sqrt ((sqDist p q : ℚ) : ℝ)

/-- Destination width: `max(norm(src0 - src1), norm(src2 - src3))` — the
larger of the top and bottom edge lengths. -/
noncomputable def dst_width (st : ImageWidgetState) : ℝ :=
  max (edgeLen (toOrigPoint st st.corners.c0) (toOrigPoint st st.corners.c1))
      (edgeLen (toOrigPoint st st.corners.c2) (toOrigPoint st st.corners.c3))

/-- Destination height: `max(norm(src0 - src3), norm(src1 - src2))` — the
larger of the left and right edge lengths. -/
noncomputable def dst_height (st : ImageWidgetState) : ℝ :=
  max (edgeLen (toOrigPoint st st.corners.c0) (toOrigPoint st st.corners.c3))
      (edgeLen (toOrigPoint st st.corners.c1) (toOrigPoint st st.corners.c2))

/-- `dst_points`: the axis-aligned destination rectangle handed to
`cv2.getPerspectiveTransform` together with `src_points`. -/
noncomputable def dst_points (st : ImageWidgetState) : List (ℝ × ℝ) :=
  [(0, 0), (dst_width st, 0), (dst_width st, dst_height st), (0, dst_height st)]

/-- Python `int(r)` on a real value (truncation toward zero). -/
noncomputable def pyIntR (r : ℝ) : ℤ :=
  if r < 0 then -⌊-r⌋ else ⌊r⌋

/-- The `(int(width), int(height))` pair returned by
`get_perspective_transform`. -/
noncomputable def transform_size (st : ImageWidgetState) : ℤ × ℤ :=
  (pyIntR (dst_width st), pyIntR (dst_height st))


/-! ## Concrete instances used by witnesses and counterexamples -/

/-- A response with no words at all (no pages). -/
def respNoWords : VisionResponse :=
  { error_message := "", pages := [] }

/-- Concrete OCR stub for the C5 witness: cell 3 fails, the rest succeed. -/
def ocrStub (n : ℕ) : Except String String :=
  if n = 3 then .error "backend down" else .ok "txt"

/-- A word whose four bounding-box vertices all sit at ordinate `y` (so its
centroid ordinate is `y`). -/
def wordAtY (y : ℚ) : OcrWord :=
  { symbols := [{ text := "w" }],
    bounding_box := { vertices := [⟨0, y⟩, ⟨0, y⟩, ⟨0, y⟩, ⟨0, y⟩] } }

/-- Concrete `ImageWidget` state for the C8 example: a 100 by 50 image shown
unscaled and uncentered, corners on the image's corners (an undistorted
axis-aligned quad). -/
def perspC : ImageWidgetState :=
  { widgetW := 100, widgetH := 50, scaledW := 100, scaledH := 50,
    origW := 100, origH := 50,
    corners := { c0 := (0, 0), c1 := (100, 0), c2 := (100, 50), c3 := (0, 50) } }

/-- Concrete widget for the C9 witness: one horizontal and one vertical
line, unlocked, with the horizontal line's start endpoint being dragged. -/
def wDragging : CustomLineWidget :=
  { widgetWidth := 100, widgetHeight := 100, scaled_pixmap := some (100, 100),
    horizontal_lines :=
      [{ start := { x := 0, y := 40 }, endp := { x := 100, y := 40 },
         intersections := [], cells := [] }],
    vertical_lines :=
      [{ start := { x := 60, y := 0 }, endp := { x := 60, y := 100 },
         intersections := [], cells := [] }],
    is_locked := false,
    dragging_endpoint := some { index := 0, whichEnd := EndSel.startSel,
                                orient := LineOrient.horizontal },
    cells := [] }

/-- Concrete unlocked 1 by 1 grid over a 10 by 10 region: horizontal lines
at y = 0 and y = 10, vertical lines at x = 0 and x = 10. -/
def wGrid : CustomLineWidget :=
  { widgetWidth := 10, widgetHeight := 10, scaled_pixmap := some (10, 10),
    horizontal_lines :=
      [{ start := { x := 0, y := 0 }, endp := { x := 10, y := 0 },
         intersections := [], cells := [] },
       { start := { x := 0, y := 10 }, endp := { x := 10, y := 10 },
         intersections := [], cells := [] }],
    vertical_lines :=
      [{ start := { x := 0, y := 0 }, endp := { x := 0, y := 10 },
         intersections := [], cells := [] },
       { start := { x := 10, y := 0 }, endp := { x := 10, y := 10 },
         intersections := [], cells := [] }],
    is_locked := false, dragging_endpoint := none, cells := [] }

/-- The single cell of the 1 by 1 grid. -/
def cell11 : Cell :=
  { top_left := (0, 0), top_right := (10, 0),
    bottom_left := (0, 10), bottom_right := (10, 10) }

/-- `wGrid` after `calculate_intersections` (locked). -/
def relockW1i : CustomLineWidget :=
  { widgetWidth := 10, widgetHeight := 10, scaled_pixmap := some (10, 10),
    horizontal_lines :=
      [{ start := { x := 0, y := 0 }, endp := { x := 10, y := 0 },
         intersections := [(0, 0), (10, 0)], cells := [] },
       { start := { x := 0, y := 10 }, endp := { x := 10, y := 10 },
         intersections := [(0, 10), (10, 10)], cells := [] }],
    vertical_lines := wGrid.vertical_lines,
    is_locked := true, dragging_endpoint := none, cells := [] }

/-- `wGrid` after the first `toggle_lock`. -/
def relockW1 : CustomLineWidget :=
  { relockW1i with
    horizontal_lines :=
      [{ start := { x := 0, y := 0 }, endp := { x := 10, y := 0 },
         intersections := [(0, 0), (10, 0)], cells := [cell11] },
       { start := { x := 0, y := 10 }, endp := { x := 10, y := 10 },
         intersections := [(0, 10), (10, 10)], cells := [] }] }

/-- `wGrid` after lock then unlock. -/
def relockW2 : CustomLineWidget :=
  { relockW1 with is_locked := false }

/-- `relockW2` after `calculate_intersections` again (second lock). -/
def relockW2i : CustomLineWidget :=
  { relockW1 with is_locked := true }

/-- `wGrid` after lock, unlock, lock: the first horizontal line now carries
its cell twice. -/
def relockW3 : CustomLineWidget :=
  { relockW1i with
    horizontal_lines :=
      [{ start := { x := 0, y := 0 }, endp := { x := 10, y := 0 },
         intersections := [(0, 0), (10, 0)], cells := [cell11, cell11] },
       { start := { x := 0, y := 10 }, endp := { x := 10, y := 10 },
         intersections := [(0, 10), (10, 10)], cells := [] }] }

/-- The x-position of the j-th vertical line `create_lines` places for a
region of width `pw`: `x_offset + (j * pw) // num_vertical` with
`num_vertical = 2`. -/
def gridX (w : CustomLineWidget) (pw : ℤ) (j : ℕ) : ℤ :=
  Int.fdiv (w.widgetWidth - pw) 2 + Int.fdiv ((j : ℤ) * pw) 2

/-- The y-position of the i-th horizontal line `create_lines` places for a
region of height `ph`, with `num_horizontal = 2`. -/
def gridY (w : CustomLineWidget) (ph : ℤ) (i : ℕ) : ℤ :=
  Int.fdiv (w.widgetHeight - ph) 2 + Int.fdiv ((i : ℤ) * ph) 2

/-- A fresh horizontal guide line from `Xl` to `Xr` at height `Y`. -/
def hLine3 (Xl Xr Y : ℤ) : Line :=
  { start := { x := (Xl : ℚ), y := (Y : ℚ) }, endp := { x := (Xr : ℚ), y := (Y : ℚ) },
    intersections := [], cells := [] }

/-- A fresh vertical guide line from `Yt` to `Yb` at abscissa `X`. -/
def vLine3 (Yt Yb X : ℤ) : Line :=
  { start := { x := (X : ℚ), y := (Yt : ℚ) }, endp := { x := (X : ℚ), y := (Yb : ℚ) },
    intersections := [], cells := [] }

/-- Base widget for the C3 witness: a 100 by 60 region, no lines yet. -/
def wBase : CustomLineWidget :=
  { widgetWidth := 100, widgetHeight := 60, scaled_pixmap := some (100, 60),
    horizontal_lines := [], vertical_lines := [], is_locked := false,
    dragging_endpoint := none, cells := [] }

/-! ## Theorems -/

/-- C2: the intersection computation records no point when the denominator is
below the `1e-10` epsilon in absolute value or when the parameters `t`, `u`
fall outside `[0, 1]`, and otherwise records exactly the parametric point
truncated to integer coordinates; the two concrete segment pairs from the
spec behave as stated. -/
theorem segmentIntersect_formula :
    (∀ x1 y1 x2 y2 x3 y3 x4 y4 : ℚ,
      segIntersect x1 y1 x2 y2 x3 y3 x4 y4 =
        (let d := (x1 - x2) * (y3 - y4) - (y1 - y2) * (x3 - x4)
         let t := ((x1 - x3) * (y3 - y4) - (y1 - y3) * (x3 - x4)) / d
         let u := -((x1 - x2) * (y1 - y3) - (y1 - y2) * (x1 - x3)) / d
         if |d| < 1 / 10 ^ 10 ∨ ¬(0 ≤ t ∧ t ≤ 1 ∧ 0 ≤ u ∧ u ≤ 1) then none
         else some (pyInt (x1 + t * (x2 - x1)), pyInt (y1 + t * (y2 - y1))))) ∧
    segIntersect 0 10 100 10 50 0 50 100 = some (50, 10) ∧
    segIntersect 0 10 40 10 50 0 50 100 = none := by
  refine ⟨?_, ?_, ?_⟩
  · intro x1 y1 x2 y2 x3 y3 x4 y4
    simp only [segIntersect]
    split_ifs <;> first | rfl | tauto
  · norm_num [segIntersect, pyInt]
  · norm_num [segIntersect, pyInt]

/-- C7: with an image region set and `n_h, n_v` in the dialog's `[1, 999999]`
range, `create_lines` replaces the line lists with exactly `n_h + 1`
horizontal lines at `y_offset + (i * height) // n_h` spanning the full
width, and `n_v + 1` vertical lines at `x_offset + (i * width) // n_v`
spanning the full height. -/
theorem create_lines_places_lines (w : CustomLineWidget) (pw ph : ℤ) (nh nv : ℕ)
    (hsp : w.scaled_pixmap = some (pw, ph))
    (hnh1 : 1 ≤ nh) (hnh2 : nh ≤ 999999) (hnv1 : 1 ≤ nv) (hnv2 : nv ≤ 999999) :
    ((create_lines w nh nv).horizontal_lines.length = nh + 1) ∧
    ((create_lines w nh nv).vertical_lines.length = nv + 1) ∧
    (∀ i : ℕ, i ≤ nh →
      (create_lines w nh nv).horizontal_lines[i]? =
        some { start := { x := ((Int.fdiv (w.widgetWidth - pw) 2 : ℤ) : ℚ),
                          y := ((Int.fdiv (w.widgetHeight - ph) 2 +
                                  Int.fdiv ((i : ℤ) * ph) (nh : ℤ) : ℤ) : ℚ) },
               endp := { x := ((Int.fdiv (w.widgetWidth - pw) 2 + pw : ℤ) : ℚ),
                         y := ((Int.fdiv (w.widgetHeight - ph) 2 +
                                  Int.fdiv ((i : ℤ) * ph) (nh : ℤ) : ℤ) : ℚ) },
               intersections := [], cells := [] }) ∧
    (∀ j : ℕ, j ≤ nv →
      (create_lines w nh nv).vertical_lines[j]? =
        some { start := { x := ((Int.fdiv (w.widgetWidth - pw) 2 +
                                  Int.fdiv ((j : ℤ) * pw) (nv : ℤ) : ℤ) : ℚ),
                          y := ((Int.fdiv (w.widgetHeight - ph) 2 : ℤ) : ℚ) },
               endp := { x := ((Int.fdiv (w.widgetWidth - pw) 2 +
                                  Int.fdiv ((j : ℤ) * pw) (nv : ℤ) : ℤ) : ℚ),
                         y := ((Int.fdiv (w.widgetHeight - ph) 2 + ph : ℤ) : ℚ) },
               intersections := [], cells := [] }) := by
  refine ⟨?_, ?_, ?_, ?_⟩
  · simp [create_lines, hsp]
  · simp [create_lines, hsp]
  · intro i hi
    simp only [create_lines, hsp]
    rw [List.getElem?_map, List.getElem?_range (by omega)]
    rfl
  · intro j hj
    simp only [create_lines, hsp]
    rw [List.getElem?_map, List.getElem?_range (by omega)]
    rfl

/-- C10: when credentials are set and the backend response carries a
non-empty error message, `process_image` emits `ocr_error` twice with the
formatted message — once in the error branch, once from the surrounding
exception handler — and re-raises the exception to the caller. -/
theorem process_image_error_double_emit (resp : VisionResponse)
    (h : resp.error_message ≠ "") :
    process_image true resp =
      ([OcrSignal.started,
        OcrSignal.error ("Vision API Error: " ++ resp.error_message),
        OcrSignal.error ("Vision API Error: " ++ resp.error_message)],
       some ("Vision API Error: " ++ resp.error_message)) := by
  simp [process_image, process_image_try, h]

/-- C10 witness: a concrete response with error message "boom". -/
theorem process_image_error_double_emit_witness :
    process_image true { error_message := "boom", pages := [] } =
      ([OcrSignal.started, OcrSignal.error "Vision API Error: boom",
        OcrSignal.error "Vision API Error: boom"],
       some "Vision API Error: boom") :=
  process_image_error_double_emit { error_message := "boom", pages := [] }
    (by decide)

/-- C4 counterexample: on a response with no words at all, the layout
reconstruction returns an empty header, not the default header
`["Column 1".."Column 4"]` the claim states. -/
theorem analyze_no_words_not_default :
    analyze_document_layout respNoWords = ([], []) ∧
    analyze_document_layout respNoWords ≠ (defaultHeader, []) := by
  have h1 : analyze_document_layout respNoWords = (([] : List String), ([] : List (List String))) := rfl
  refine ⟨h1, ?_⟩
  intro hcontra
  rw [h1] at hcontra
  have hlen := congrArg (fun p => p.1.length) hcontra
  simp [defaultHeader] at hlen

/-- C4 amended: if the OCR response contains no words at all, the layout
reconstruction returns an empty header together with an empty body. -/
theorem analyze_no_words_empty (resp : VisionResponse)
    (h : ∀ p ∈ resp.pages, pageWords p = []) :
    analyze_document_layout resp = ([], []) := by
  cases hpages : resp.pages with
  | nil => simp [analyze_document_layout, hpages]
  | cons page rest =>
    have hw : pageWords page = [] := h page (by rw [hpages]; exact List.mem_cons_self page rest)
    simp [analyze_document_layout, hpages, hw, groupWords]

/-- C4 amended witness: a response with one page and no words. -/
theorem analyze_no_words_empty_witness :
    analyze_document_layout { error_message := "", pages := [{ blocks := [], width := 500 }] } = ([], []) :=
  analyze_no_words_empty _ (by
    intro p hp
    rcases List.eq_of_mem_singleton hp with rfl
    rfl)

/-- C5: per-cell extraction over a locked grid isolates a single-cell
backend failure: the failing cell's slot holds the empty string, every
other cell holds its trimmed OCR text, and the extraction is a total
function of the grid (same shape, no propagated exception). This is
settled against the spec-modelled `extract_table` (spec §4.5); the
component has no implementation under src/. -/
theorem extract_table_isolates_failure {α : Type} (grid : List (List α))
    (ocr_cell : α → Except String String) (texts : α → String)
    (r c : ℕ) (cellrc : α) (e : String)
    (hrc : matrixGet grid r c = some cellrc)
    (hfail : ocr_cell cellrc = .error e)
    (hok : ∀ i j cij, (i ≠ r ∨ j ≠ c) → matrixGet grid i j = some cij →
      ocr_cell cij = .ok (texts cij)) :
    matrixGet (extract_table grid ocr_cell) r c = some "" ∧
    (∀ i j cij, (i ≠ r ∨ j ≠ c) → matrixGet grid i j = some cij →
      matrixGet (extract_table grid ocr_cell) i j = some ((texts cij).trim)) ∧
    (extract_table grid ocr_cell).length = grid.length ∧
    (∀ (i : ℕ) (row : List α), grid[i]? = some row →
      ∃ row' : List String, (extract_table grid ocr_cell)[i]? = some row' ∧
        row'.length = row.length) := by
  have hget : ∀ i j, matrixGet (extract_table grid ocr_cell) i j =
      (matrixGet grid i j).map (fun cell =>
        match ocr_cell cell with
        | .ok text => text.trim
        | .error _ => "") := by
    intro i j
    unfold matrixGet extract_table
    rw [List.getElem?_map]
    cases grid[i]? with
    | none => rfl
    | some row => simp [List.getElem?_map]
  refine ⟨?_, ?_, ?_, ?_⟩
  · rw [hget, hrc]
    simp [hfail]
  · intro i j cij hne hg
    rw [hget, hg]
    simp [hok i j cij hne hg]
  · simp [extract_table]
  · intro i row hrow
    refine ⟨row.map (fun cell =>
      match ocr_cell cell with
      | .ok text => text.trim
      | .error _ => ""), ?_, by simp⟩
    unfold extract_table
    rw [List.getElem?_map, hrow]
    rfl

/-- C5 witness: a 2 times 2 grid where only cell (1,1) fails. -/
theorem extract_table_isolates_failure_witness :
    matrixGet (extract_table [[0, 1], [2, 3]] ocrStub) 1 1 = some "" :=
  (extract_table_isolates_failure [[0, 1], [2, 3]] ocrStub (fun _ => "txt")
    1 1 3 "backend down" rfl rfl (by
      intro i j cij hne hg
      match i, j with
      | 0, 0 => simp [matrixGet] at hg; rw [← hg]; rfl
      | 0, 1 => simp [matrixGet] at hg; rw [← hg]; rfl
      | 1, 0 => simp [matrixGet] at hg; rw [← hg]; rfl
      | 1, 1 => exact absurd hne (by tauto)
      | 0, j + 2 => simp [matrixGet] at hg
      | 1, j + 2 => simp [matrixGet] at hg
      | i + 2, _ => simp [matrixGet] at hg)).1

/-- C6: each word (with a bounding box) joins the first existing row bucket
whose key is within the fixed 50 px tolerance of its centroid ordinate,
else starts a new bucket keyed at its own centroid ordinate; bucket keys
are never updated. Words at y-levels 10 and 200 produce two buckets; words
at y-levels 10 and 40 (difference below 50) share one bucket. -/
theorem row_bucketing_first_fit :
    (∀ (pre post : List (ℚ × List RowWord)) (k : ℚ) (es : List RowWord)
        (y : ℚ) (rw : RowWord),
      (∀ b ∈ pre, ¬(|y - b.1| < 50)) → |y - k| < 50 →
      insertRowWord (pre ++ (k, es) :: post) y rw =
        pre ++ (k, es ++ [rw]) :: post) ∧
    (∀ (bs : List (ℚ × List RowWord)) (y : ℚ) (rw : RowWord),
      (∀ b ∈ bs, ¬(|y - b.1| < 50)) →
      insertRowWord bs y rw = bs ++ [(y, [rw])]) ∧
    (∀ (bs : List (ℚ × List RowWord)) (y : ℚ) (rw : RowWord),
      (insertRowWord bs y rw).map Prod.fst = bs.map Prod.fst ∨
      (insertRowWord bs y rw).map Prod.fst = bs.map Prod.fst ++ [y]) ∧
    (∀ (bs : List (ℚ × List RowWord)) (w : OcrWord),
      ¬w.bounding_box.vertices.isEmpty →
      addWord bs w =
        insertRowWord bs (wordAvgY w) { x := wordAvgX w, text := word_text w }) ∧
    (groupWords [wordAtY 10, wordAtY 200]).map Prod.fst = [10, 200] ∧
    (groupWords [wordAtY 10, wordAtY 40]).map Prod.fst = [10] := by
  have havg : ∀ y : ℚ, wordAvgY (wordAtY y) = y := by
    intro y
    simp [wordAvgY, wordAtY]
    ring
  refine ⟨?_, ?_, ?_, ?_, ?_, ?_⟩
  · intro pre post k es y rw hpre hk
    induction pre with
    | nil => simp [insertRowWord, hk]
    | cons b rest ih =>
      have hb : ¬(|y - b.1| < 50) := hpre b (List.mem_cons_self b rest)
      have hrest : ∀ b' ∈ rest, ¬(|y - b'.1| < 50) := fun b' hb' =>
        hpre b' (List.mem_cons_of_mem b hb')
      cases b with
      | mk b1 b2 => simpa [insertRowWord, hb] using ih hrest
  · intro bs y rw hbs
    induction bs with
    | nil => rfl
    | cons b rest ih =>
      have hb : ¬(|y - b.1| < 50) := hbs b (List.mem_cons_self b rest)
      have hrest : ∀ b' ∈ rest, ¬(|y - b'.1| < 50) := fun b' hb' =>
        hbs b' (List.mem_cons_of_mem b hb')
      cases b with
      | mk b1 b2 => simpa [insertRowWord, hb] using ih hrest
  · intro bs y rw
    induction bs with
    | nil => right; rfl
    | cons b rest ih =>
      cases b with
      | mk b1 b2 =>
        by_cases hb : |y - b1| < 50
        · left; simp [insertRowWord, hb]
        · rcases ih with h | h
          · left; simpa [insertRowWord, hb] using h
          · right; simpa [insertRowWord, hb] using h
  · intro bs w hw
    simp [addWord, hw]
  · have h1 : ¬(|(200 : ℚ) - 10| < 50) := by norm_num
    have hne : ∀ y : ℚ, (wordAtY y).bounding_box.vertices.isEmpty = false := fun y => rfl
    simp [groupWords, addWord, insertRowWord, havg, hne, h1]
  · have h1 : |(40 : ℚ) - 10| < 50 := by norm_num
    have hne : ∀ y : ℚ, (wordAtY y).bounding_box.vertices.isEmpty = false := fun y => rfl
    simp [groupWords, addWord, insertRowWord, havg, hne, h1]

/-- C6 witness: a word at centroid ordinate 10 appended to a single bucket
keyed at 100 (outside tolerance) starts a new bucket keyed at 10. -/
theorem row_bucketing_first_fit_witness :
    insertRowWord [((100 : ℚ), ([] : List RowWord))] 10 { x := 0, text := "w" } =
      [(100, []), (10, [{ x := 0, text := "w" }])] :=
  row_bucketing_first_fit.2.1 [((100 : ℚ), ([] : List RowWord))] 10
    { x := 0, text := "w" } (by
      intro b hb
      rcases List.eq_of_mem_singleton hb with rfl
      norm_num)

/-- C8: the destination rectangle's width is the larger of the top and
bottom edge lengths of the source quad in original-image coordinates, its
height the larger of the left and right edge lengths, and the four source
corners are mapped to `(0,0), (w,0), (w,h), (0,h)`; on the undistorted
axis-aligned quad `(0,0), (100,0), (100,50), (0,50)` this gives width 100,
height 50, and destination corners identical to the source corners (an
identity-equivalent homography). -/
theorem perspective_transform_spec :
    (∀ st : ImageWidgetState,
      dst_width st =
        max (edgeLen (toOrigPoint st st.corners.c0) (toOrigPoint st st.corners.c1))
            (edgeLen (toOrigPoint st st.corners.c2) (toOrigPoint st st.corners.c3)) ∧
      dst_height st =
        max (edgeLen (toOrigPoint st st.corners.c0) (toOrigPoint st st.corners.c3))
            (edgeLen (toOrigPoint st st.corners.c1) (toOrigPoint st st.corners.c2)) ∧
      dst_points st =
        [(0, 0), (dst_width st, 0), (dst_width st, dst_height st),
         (0, dst_height st)]) ∧
    src_points perspC = [(0, 0), (100, 0), (100, 50), (0, 50)] ∧
    dst_width perspC = 100 ∧
    dst_height perspC = 50 ∧
    transform_size perspC = (100, 50) ∧
    dst_points perspC = (src_points perspC).map (fun p => ((p.1 : ℝ), (p.2 : ℝ))) := by
  have hc0 : toOrigPoint perspC perspC.corners.c0 = (0, 0) := by
    simp [toOrigPoint, perspC]
  have hc1 : toOrigPoint perspC perspC.corners.c1 = (100, 0) := by
    simp [toOrigPoint, perspC]
  have hc2 : toOrigPoint perspC perspC.corners.c2 = (100, 50) := by
    simp [toOrigPoint, perspC]
  have hc3 : toOrigPoint perspC perspC.corners.c3 = (0, 50) := by
    simp [toOrigPoint, perspC]
  have hsqrt : ∀ q : ℚ, ∀ r : ℝ, 0 ≤ r → ((q : ℝ) = r ^ 2) → Real.sqrt ((q : ℚ) : ℝ) = r := by
    intro q r hr hq
    rw [hq, Real.sqrt_sq hr]
  have h01 : edgeLen ((0 : ℚ), (0 : ℚ)) ((100 : ℚ), (0 : ℚ)) = 100 := by
    unfold edgeLen
    exact hsqrt _ 100 (by norm_num) (by norm_num [sqDist])
  have h23 : edgeLen ((100 : ℚ), (50 : ℚ)) ((0 : ℚ), (50 : ℚ)) = 100 := by
    unfold edgeLen
    exact hsqrt _ 100 (by norm_num) (by norm_num [sqDist])
  have h03 : edgeLen ((0 : ℚ), (0 : ℚ)) ((0 : ℚ), (50 : ℚ)) = 50 := by
    unfold edgeLen
    exact hsqrt _ 50 (by norm_num) (by norm_num [sqDist])
  have h12 : edgeLen ((100 : ℚ), (0 : ℚ)) ((100 : ℚ), (50 : ℚ)) = 50 := by
    unfold edgeLen
    exact hsqrt _ 50 (by norm_num) (by norm_num [sqDist])
  have hw : dst_width perspC = 100 := by
    unfold dst_width
    rw [hc0, hc1, hc2, hc3, h01, h23]
    norm_num
  have hh : dst_height perspC = 50 := by
    unfold dst_height
    rw [hc0, hc1, hc2, hc3, h03, h12]
    norm_num
  refine ⟨fun st => ⟨rfl, rfl, rfl⟩, ?_, hw, hh, ?_, ?_⟩
  · simp [src_points, hc0, hc1, hc2, hc3]
  · unfold transform_size pyIntR
    rw [hw, hh]
    rw [if_neg (by norm_num), if_neg (by norm_num)]
    rw [show (100 : ℝ) = ((100 : ℤ) : ℝ) by norm_num,
        show (50 : ℝ) = ((50 : ℤ) : ℝ) by norm_num,
        Int.floor_intCast, Int.floor_intCast]
  · unfold dst_points
    rw [hw, hh]
    simp [src_points, hc0, hc1, hc2, hc3]

/-- Index-wise behaviour of `modifyAt`. -/
theorem modifyAt_getElem? {α : Type} (l : List α) (i j : ℕ) (f : α → α) :
    (modifyAt l i f)[j]? = if j = i then (l[i]?).map f else l[j]? := by
  induction l generalizing i j with
  | nil => simp [modifyAt]
  | cons a rest ih =>
    cases i with
    | zero =>
      cases j with
      | zero => simp [modifyAt]
      | succ j => simp [modifyAt]
    | succ i =>
      cases j with
      | zero => simp [modifyAt]
      | succ j => simpa [modifyAt] using ih i j

/-- C9: while the grid is unlocked and an endpoint is being dragged, a move
event changes only the dragged endpoint's coordinate on the axis orthogonal
to the line's orientation (y for a horizontal line, x for a vertical line);
the endpoint's other coordinate, the line's opposite endpoint, the line's
cached intersections/cells, every other line of the same orientation, and
the entire other line list are unchanged. -/
theorem mouseMove_updates_single_axis (w : CustomLineWidget) (d : Drag)
    (px py : ℚ) (hd : w.dragging_endpoint = some d) (hl : w.is_locked = false) :
    (d.orient = LineOrient.horizontal →
      (mouseMoveEvent w px py).vertical_lines = w.vertical_lines ∧
      (∀ j : ℕ, j ≠ d.index →
        (mouseMoveEvent w px py).horizontal_lines[j]? = w.horizontal_lines[j]?) ∧
      (∀ l : Line, w.horizontal_lines[d.index]? = some l →
        ∃ l' : Line,
          (mouseMoveEvent w px py).horizontal_lines[d.index]? = some l' ∧
          (l'.endpointAt d.whichEnd).y = ((pyInt py : ℤ) : ℚ) ∧
          (l'.endpointAt d.whichEnd).x = (l.endpointAt d.whichEnd).x ∧
          l'.endpointAt d.whichEnd.other = l.endpointAt d.whichEnd.other ∧
          l'.intersections = l.intersections ∧ l'.cells = l.cells)) ∧
    (d.orient = LineOrient.vertical →
      (mouseMoveEvent w px py).horizontal_lines = w.horizontal_lines ∧
      (∀ j : ℕ, j ≠ d.index →
        (mouseMoveEvent w px py).vertical_lines[j]? = w.vertical_lines[j]?) ∧
      (∀ l : Line, w.vertical_lines[d.index]? = some l →
        ∃ l' : Line,
          (mouseMoveEvent w px py).vertical_lines[d.index]? = some l' ∧
          (l'.endpointAt d.whichEnd).x = ((pyInt px : ℤ) : ℚ) ∧
          (l'.endpointAt d.whichEnd).y = (l.endpointAt d.whichEnd).y ∧
          l'.endpointAt d.whichEnd.other = l.endpointAt d.whichEnd.other ∧
          l'.intersections = l.intersections ∧ l'.cells = l.cells)) := by
  rcases d with ⟨idx, which, orient⟩
  cases orient with
  | horizontal =>
    refine ⟨fun _ => ?_, fun hcontra => by simp at hcontra⟩
    have hmm : mouseMoveEvent w px py =
        { w with horizontal_lines := modifyAt w.horizontal_lines idx (fun l =>
            setEndY l which ((pyInt py : ℤ) : ℚ)) } := by
      simp [mouseMoveEvent, hd, hl]
    refine ⟨by rw [hmm], ?_, ?_⟩
    · intro j hj
      rw [hmm]
      simp only []
      rw [modifyAt_getElem?, if_neg hj]
    · intro l hli
      refine ⟨setEndY l which ((pyInt py : ℤ) : ℚ), ?_, ?_, ?_, ?_, ?_, ?_⟩
      · rw [hmm]
        simp only []
        rw [modifyAt_getElem?, if_pos rfl, hli]
        rfl
      · cases which <;> simp [setEndY, Line.endpointAt]
      · cases which <;> simp [setEndY, Line.endpointAt]
      · cases which <;> simp [setEndY, Line.endpointAt, EndSel.other]
      · cases which <;> simp [setEndY]
      · cases which <;> simp [setEndY]
  | vertical =>
    refine ⟨fun hcontra => by simp at hcontra, fun _ => ?_⟩
    have hmm : mouseMoveEvent w px py =
        { w with vertical_lines := modifyAt w.vertical_lines idx (fun l =>
            setEndX l which ((pyInt px : ℤ) : ℚ)) } := by
      simp [mouseMoveEvent, hd, hl]
    refine ⟨by rw [hmm], ?_, ?_⟩
    · intro j hj
      rw [hmm]
      simp only []
      rw [modifyAt_getElem?, if_neg hj]
    · intro l hli
      refine ⟨setEndX l which ((pyInt px : ℤ) : ℚ), ?_, ?_, ?_, ?_, ?_, ?_⟩
      · rw [hmm]
        simp only []
        rw [modifyAt_getElem?, if_pos rfl, hli]
        rfl
      · cases which <;> simp [setEndX, Line.endpointAt]
      · cases which <;> simp [setEndX, Line.endpointAt]
      · cases which <;> simp [setEndX, Line.endpointAt, EndSel.other]
      · cases which <;> simp [setEndX]
      · cases which <;> simp [setEndX]

/-- C9 witness: the concrete dragging widget, with a move event at
`(17, 83)`. -/
theorem mouseMove_updates_single_axis_witness :
    (mouseMoveEvent wDragging 17 83).vertical_lines = wDragging.vertical_lines :=
  ((mouseMove_updates_single_axis wDragging
      { index := 0, whichEnd := EndSel.startSel, orient := LineOrient.horizontal }
      17 83 rfl rfl).1 rfl).1

/-- C1 (failing input): re-locking an unmodified grid reproduces the same
intersections, but not the same cell lists — `calculate_cells` resets the
unused widget attribute `self.cells` and appends to each horizontal line's
never-cleared `cells` list, so after lock, unlock, lock the first
horizontal line carries its cell twice. -/
theorem relock_duplicates_cells :
    (toggle_lock (toggle_lock (toggle_lock wGrid))).horizontal_lines.map
        Line.intersections =
      (toggle_lock wGrid).horizontal_lines.map Line.intersections ∧
    (toggle_lock wGrid).horizontal_lines.map (fun l => l.cells) =
      [[cell11], []] ∧
    (toggle_lock (toggle_lock (toggle_lock wGrid))).horizontal_lines.map
        (fun l => l.cells) = [[cell11, cell11], []] ∧
    (toggle_lock (toggle_lock (toggle_lock wGrid))).horizontal_lines.map
        (fun l => l.cells) ≠
      (toggle_lock wGrid).horizontal_lines.map (fun l => l.cells) := by
  have hseg00 : segIntersect 0 0 10 0 0 0 0 10 = some (0, 0) := by
    norm_num [segIntersect, pyInt]
  have hseg01 : segIntersect 0 0 10 0 10 0 10 10 = some (10, 0) := by
    norm_num [segIntersect, pyInt]
  have hseg10 : segIntersect 0 10 10 10 0 0 0 10 = some (0, 10) := by
    norm_num [segIntersect, pyInt]
  have hseg11 : segIntersect 0 10 10 10 10 0 10 10 = some (10, 10) := by
    norm_num [segIntersect, pyInt]
  have hA1 : calculate_intersections { wGrid with is_locked := true } = relockW1i := by
    simp [calculate_intersections, wGrid, relockW1i, hseg00, hseg01, hseg10, hseg11]
  have hB1 : calculate_cells relockW1i = relockW1 := by
    norm_num [calculate_cells, relockW1i, relockW1, wGrid, cell11, sortByKey,
      insertByKey, appendCellsToLines, cellsBetween, findLower]
  have hT1 : toggle_lock wGrid = relockW1 := by
    rw [show toggle_lock wGrid =
        calculate_cells (calculate_intersections { wGrid with is_locked := true })
      from rfl, hA1, hB1]
  have hT2 : toggle_lock relockW1 = relockW2 := by rfl
  have hA2 : calculate_intersections { relockW2 with is_locked := true } = relockW2i := by
    simp [calculate_intersections, relockW2, relockW2i, relockW1, relockW1i, wGrid,
      hseg00, hseg01, hseg10, hseg11]
  have hB2 : calculate_cells relockW2i = relockW3 := by
    norm_num [calculate_cells, relockW2i, relockW1, relockW1i, relockW3, wGrid,
      cell11, sortByKey, insertByKey, appendCellsToLines, cellsBetween, findLower]
  have hT3 : toggle_lock relockW2 = relockW3 := by
    rw [show toggle_lock relockW2 =
        calculate_cells (calculate_intersections { relockW2 with is_locked := true })
      from rfl, hA2, hB2]
  rw [hT1, hT2, hT3]
  refine ⟨by simp [relockW1, relockW1i, relockW3], ?_, ?_, ?_⟩
  · simp [relockW1, relockW1i]
  · simp [relockW3, relockW1i]
  · simp [relockW1, relockW1i, relockW3, cell11]

/-- Python `int()` of an integer value is that integer. -/
theorem pyInt_intCast (n : ℤ) : pyInt ((n : ℤ) : ℚ) = n := by
  unfold pyInt
  by_cases hn : ((n : ℤ) : ℚ) < 0
  · rw [if_pos hn, show -((n : ℤ) : ℚ) = ((-n : ℤ) : ℚ) by push_cast; ring,
      Int.floor_intCast]
    ring
  · rw [if_neg hn, Int.floor_intCast]

/-- `segIntersect` on an axis-parallel horizontal segment (from `(a, y)` to
`(a + w, y)`) and vertical segment (from `(x, b)` to `(x, b + h)`) whose
spans overlap returns the truncated crossing point `(x, y)`. -/
theorem segIntersect_hv_q (a y x b w h : ℚ) (hw : 0 < w) (hh : 0 < h)
    (hwh : 1 ≤ w * h) (hx1 : a ≤ x) (hx2 : x ≤ a + w)
    (hy1 : b ≤ y) (hy2 : y ≤ b + h) :
    segIntersect a y (a + w) y x b x (b + h) = some (pyInt x, pyInt y) := by
  have hw0 : w ≠ 0 := hw.ne'
  have hh0 : h ≠ 0 := hh.ne'
  have hwh0 : (0 : ℚ) < w * h := mul_pos hw hh
  simp only [segIntersect]
  have hd : (a - (a + w)) * (b - (b + h)) - (y - y) * (x - x) = w * h := by ring
  rw [hd, if_neg (by rw [abs_of_pos hwh0]; linarith)]
  have ht : ((a - x) * (b - (b + h)) - (y - b) * (x - x)) / (w * h) = (x - a) / w := by
    field_simp
    ring
  have hu : -((a - (a + w)) * (y - b) - (y - y) * (a - x)) / (w * h) = (y - b) / h := by
    field_simp
    ring
  rw [ht, hu, if_pos ⟨div_nonneg (by linarith) hw.le,
    by rw [div_le_one hw]; linarith,
    div_nonneg (by linarith) hh.le,
    by rw [div_le_one hh]; linarith⟩]
  have hx' : a + (x - a) / w * (a + w - a) = x := by
    field_simp
  have hy' : y + (x - a) / w * (y - y) = y := by ring
  rw [hx', hy']

/-- Integer-coordinate version of `segIntersect_hv_q`: all endpoint values
integral, so the recorded point is the exact crossing `(x, y)`. -/
theorem segIntersect_hv_int (a y x b w h : ℤ) (hw : 1 ≤ w) (hh : 1 ≤ h)
    (hx1 : a ≤ x) (hx2 : x ≤ a + w) (hy1 : b ≤ y) (hy2 : y ≤ b + h) :
    segIntersect (a : ℚ) (y : ℚ) ((a + w : ℤ) : ℚ) (y : ℚ)
      (x : ℚ) (b : ℚ) (x : ℚ) ((b + h : ℤ) : ℚ) = some (x, y) := by
  have hq := segIntersect_hv_q (a : ℚ) (y : ℚ) (x : ℚ) (b : ℚ) (w : ℚ) (h : ℚ)
    (by exact_mod_cast hw.trans_lt' (by norm_num))
    (by exact_mod_cast hh.trans_lt' (by norm_num))
    (by
      have h1 : (1 : ℤ) ≤ w * h := by nlinarith
      exact_mod_cast h1)
    (by exact_mod_cast hx1) (by exact_mod_cast hx2)
    (by exact_mod_cast hy1) (by exact_mod_cast hy2)
  rw [show ((a + w : ℤ) : ℚ) = (a : ℚ) + (w : ℚ) by push_cast; ring,
      show ((b + h : ℤ) : ℚ) = (b : ℚ) + (h : ℚ) by push_cast; ring,
      hq, pyInt_intCast, pyInt_intCast]

/-- Locking a 3-by-3 grid of fresh axis-parallel guide lines with strictly
increasing positions computes, per horizontal line, the three crossings
with the vertical lines, and derives two cells per upper line. -/
theorem lock_3x3 (W : CustomLineWidget) (X0 X1 X2 Y0 Y1 Y2 : ℤ)
    (hX01 : X0 < X1) (hX12 : X1 < X2) (hY01 : Y0 < Y1) (hY12 : Y1 < Y2)
    (hH : W.horizontal_lines =
      [hLine3 X0 X2 Y0, hLine3 X0 X2 Y1, hLine3 X0 X2 Y2])
    (hV : W.vertical_lines =
      [vLine3 Y0 Y2 X0, vLine3 Y0 Y2 X1, vLine3 Y0 Y2 X2]) :
    (calculate_cells (calculate_intersections W)).horizontal_lines.map Line.cells =
      [[{ top_left := (X0, Y0), top_right := (X1, Y0),
          bottom_left := (X0, Y1), bottom_right := (X1, Y1) },
        { top_left := (X1, Y0), top_right := (X2, Y0),
          bottom_left := (X1, Y1), bottom_right := (X2, Y1) }],
       [{ top_left := (X0, Y1), top_right := (X1, Y1),
          bottom_left := (X0, Y2), bottom_right := (X1, Y2) },
        { top_left := (X1, Y1), top_right := (X2, Y1),
          bottom_left := (X1, Y2), bottom_right := (X2, Y2) }],
       []] := by
  have hseg : ∀ Yi Xj : ℤ, Y0 ≤ Yi → Yi ≤ Y2 → X0 ≤ Xj → Xj ≤ X2 →
      segIntersect (X0 : ℚ) (Yi : ℚ) (X2 : ℚ) (Yi : ℚ)
        (Xj : ℚ) (Y0 : ℚ) (Xj : ℚ) (Y2 : ℚ) = some (Xj, Yi) := by
    intro Yi Xj h1 h2 h3 h4
    rw [show (X2 : ℚ) = ((X0 + (X2 - X0) : ℤ) : ℚ) by push_cast; ring,
        show (Y2 : ℚ) = ((Y0 + (Y2 - Y0) : ℤ) : ℚ) by push_cast; ring]
    exact segIntersect_hv_int X0 Yi Xj Y0 (X2 - X0) (Y2 - Y0)
      (by omega) (by omega) h3 (by omega) h1 (by omega)
  have h00 := hseg Y0 X0 (by omega) (by omega) (by omega) (by omega)
  have h01 := hseg Y0 X1 (by omega) (by omega) (by omega) (by omega)
  have h02 := hseg Y0 X2 (by omega) (by omega) (by omega) (by omega)
  have h10 := hseg Y1 X0 (by omega) (by omega) (by omega) (by omega)
  have h11 := hseg Y1 X1 (by omega) (by omega) (by omega) (by omega)
  have h12 := hseg Y1 X2 (by omega) (by omega) (by omega) (by omega)
  have h20 := hseg Y2 X0 (by omega) (by omega) (by omega) (by omega)
  have h21 := hseg Y2 X1 (by omega) (by omega) (by omega) (by omega)
  have h22 := hseg Y2 X2 (by omega) (by omega) (by omega) (by omega)
  have hint : calculate_intersections W =
      { W with horizontal_lines :=
        [{ hLine3 X0 X2 Y0 with intersections := [(X0, Y0), (X1, Y0), (X2, Y0)] },
         { hLine3 X0 X2 Y1 with intersections := [(X0, Y1), (X1, Y1), (X2, Y1)] },
         { hLine3 X0 X2 Y2 with intersections := [(X0, Y2), (X1, Y2), (X2, Y2)] }] } := by
    simp only [calculate_intersections, hH, hV, List.map_cons, List.map_nil,
      hLine3, vLine3, List.filterMap_cons, List.filterMap_nil,
      h00, h01, h02, h10, h11, h12, h20, h21, h22]
  rw [hint]
  have hq01 : ((X0 : ℚ) ≤ (X1 : ℚ)) := by exact_mod_cast hX01.le
  have hq12 : ((X1 : ℚ) ≤ (X2 : ℚ)) := by exact_mod_cast hX12.le
  have hn01 : ¬ (X1 ≤ X0) := by omega
  simp only [calculate_cells, List.map_cons, List.map_nil, hLine3,
    sortByKey, insertByKey, hq01, hq12, if_true,
    appendCellsToLines, cellsBetween, findLower, ge_iff_le, le_refl, hn01,
    if_false, List.head?_cons, List.nil_append, List.cons_append,
    List.append_nil]

/-- C3: a grid freshly created by `create_lines 2 2` over a set region (at
least 2 px in each dimension so the three line positions are distinct),
with no endpoint moved, produces on locking exactly 4 cells in total, and
each cell's corners are the intersection points of the evenly spaced line
positions `gridX`/`gridY`. -/
theorem grid_2x2_lock_cells (w : CustomLineWidget) (pw ph : ℤ)
    (hsp : w.scaled_pixmap = some (pw, ph)) (hpw : 2 ≤ pw) (hph : 2 ≤ ph)
    (hlock : w.is_locked = false) :
    ((toggle_lock (create_lines w 2 2)).horizontal_lines.map
        (fun l => l.cells.length)).sum = 4 ∧
    (toggle_lock (create_lines w 2 2)).horizontal_lines.map Line.cells =
      [[{ top_left := (gridX w pw 0, gridY w ph 0),
          top_right := (gridX w pw 1, gridY w ph 0),
          bottom_left := (gridX w pw 0, gridY w ph 1),
          bottom_right := (gridX w pw 1, gridY w ph 1) },
        { top_left := (gridX w pw 1, gridY w ph 0),
          top_right := (gridX w pw 2, gridY w ph 0),
          bottom_left := (gridX w pw 1, gridY w ph 1),
          bottom_right := (gridX w pw 2, gridY w ph 1) }],
       [{ top_left := (gridX w pw 0, gridY w ph 1),
          top_right := (gridX w pw 1, gridY w ph 1),
          bottom_left := (gridX w pw 0, gridY w ph 2),
          bottom_right := (gridX w pw 1, gridY w ph 2) },
        { top_left := (gridX w pw 1, gridY w ph 1),
          top_right := (gridX w pw 2, gridY w ph 1),
          bottom_left := (gridX w pw 1, gridY w ph 2),
          bottom_right := (gridX w pw 2, gridY w ph 2) }],
       []] := by
  have hfp : Int.fdiv pw 2 = pw / 2 := Int.fdiv_eq_ediv pw (by norm_num)
  have hfh : Int.fdiv ph 2 = ph / 2 := Int.fdiv_eq_ediv ph (by norm_num)
  have hfp2 : Int.fdiv (2 * pw) 2 = pw := by
    rw [Int.fdiv_eq_ediv _ (by norm_num)]
    omega
  have hfh2 : Int.fdiv (2 * ph) 2 = ph := by
    rw [Int.fdiv_eq_ediv _ (by norm_num)]
    omega
  have hr3 : List.range 3 = [0, 1, 2] := rfl
  have hH3 : ({ create_lines w 2 2 with is_locked := true }).horizontal_lines =
      [hLine3 (gridX w pw 0) (gridX w pw 2) (gridY w ph 0),
       hLine3 (gridX w pw 0) (gridX w pw 2) (gridY w ph 1),
       hLine3 (gridX w pw 0) (gridX w pw 2) (gridY w ph 2)] := by
    simp only [create_lines, hsp]
    rw [hr3]
    simp [hLine3, gridX, gridY, hfp2]
  have hV3 : ({ create_lines w 2 2 with is_locked := true }).vertical_lines =
      [vLine3 (gridY w ph 0) (gridY w ph 2) (gridX w pw 0),
       vLine3 (gridY w ph 0) (gridY w ph 2) (gridX w pw 1),
       vLine3 (gridY w ph 0) (gridY w ph 2) (gridX w pw 2)] := by
    simp only [create_lines, hsp]
    rw [hr3]
    simp [vLine3, gridX, gridY, hfh2]
  have hmap := lock_3x3 { create_lines w 2 2 with is_locked := true }
    (gridX w pw 0) (gridX w pw 1) (gridX w pw 2)
    (gridY w ph 0) (gridY w ph 1) (gridY w ph 2)
    (by simp [gridX, hfp]; omega)
    (by simp [gridX, hfp, hfp2]; omega)
    (by simp [gridY, hfh]; omega)
    (by simp [gridY, hfh, hfh2]; omega)
    hH3 hV3
  have hCl : (create_lines w 2 2).is_locked = false := by
    simp only [create_lines, hsp]
    exact hlock
  have htog : toggle_lock (create_lines w 2 2) =
      calculate_cells (calculate_intersections
        { create_lines w 2 2 with is_locked := true }) := by
    simp [toggle_lock, hCl]
  rw [htog]
  refine ⟨?_, hmap⟩
  have hcomp : (calculate_cells (calculate_intersections
        { create_lines w 2 2 with is_locked := true })).horizontal_lines.map
        (fun l => l.cells.length) =
      ((calculate_cells (calculate_intersections
        { create_lines w 2 2 with is_locked := true })).horizontal_lines.map
        Line.cells).map List.length := by
    rw [List.map_map]
    rfl
  rw [hcomp, hmap]
  rfl

/-- C3 witness: the concrete 100 by 60 region. -/
theorem grid_2x2_lock_cells_witness :
    ((toggle_lock (create_lines wBase 2 2)).horizontal_lines.map
        (fun l => l.cells.length)).sum = 4 :=
  (grid_2x2_lock_cells wBase 100 60 rfl (by norm_num) (by norm_num) rfl).1

/-- C7 witness: `create_lines 4 4` over the concrete 100 by 60 region
produces 5 horizontal lines. -/
theorem create_lines_places_lines_witness :
    (create_lines wBase 4 4).horizontal_lines.length = 4 + 1 :=
  (create_lines_places_lines wBase 100 60 4 4 rfl (by norm_num) (by norm_num)
    (by norm_num) (by norm_num)).1
